import Mathlib

/-!
Verification of the SVG normalization core (`lib/scaleSvg.ts`).

The document-level pipeline (dimension resolution from the `viewBox` /
`width` / `height` regexes, the global `<path ... d="...">` replacement,
the global removal of sizing attributes and the root-tag patch) is
translated directly from `scaleSvg`.  The path-data algebra (parser,
affine transformer, serializer) lives in the external `svgpath` library,
which is not part of this repository's sources; those three components
are modelled from the specification (secs. 4.2-4.4).

Numbers are modelled as rationals: every numeric literal the code can
meet is a finite decimal, which rationals represent exactly.  `none`
plays the role of JavaScript's `NaN` for `Number` / `parseFloat`
(exotic forms such as hexadecimal or `Infinity` are not modelled).
-/

namespace Svg

/-- JavaScript `\s`, ASCII part: the whitespace class used by `trim`,
`split(/\s+/)` and the `\s` of the attribute-stripping regex. -/
def isWS (c : Char) : Bool :=
  c == ' ' || c == '\t' || c == '\n' || c == '\r' || c == '\x0b' || c == '\x0c'

/-- Case-insensitive "starts with": `pat` is given in lowercase, as the
`/i` regex flag folds letters. -/
def ciStarts : List Char → List Char → Bool
  | [], _ => true
  | _ :: _, [] => false
  | p :: ps, c :: cs => (c.toLower == p) && ciStarts ps cs

/-- `String.trim` of JavaScript (ASCII whitespace). -/
def trimWS (s : List Char) : List Char :=
  ((s.dropWhile isWS).reverse.dropWhile isWS).reverse

/-- `split(/\s+/)` on a trimmed string: maximal runs of non-whitespace. -/
def splitWSGo : List Char → List Char → List (List Char)
  | [], acc => if acc.isEmpty then [] else [acc.reverse]
  | c :: r, acc =>
    if isWS c then
      if acc.isEmpty then splitWSGo r [] else acc.reverse :: splitWSGo r []
    else splitWSGo r (c :: acc)

def splitWS (s : List Char) : List (List Char) := splitWSGo s []

/-- Numeric value of a digit run. -/
def natOfDigits : List Char → Nat → Nat
  | [], acc => acc
  | c :: r, acc => natOfDigits r (10 * acc + (c.toNat - 48))

/-- Scan one number from the front of the input: optional sign, integer
digits, optional fraction, optional exponent (the exponent is consumed
only when well formed).  Returns the value and the unconsumed rest;
`none` when no digit is present in the mantissa.  This is the permissive
SVG number scanner of sec. 4.2; maximal munch realizes the
run-together-numbers rule (`"10-5"` scans as `10` leaving `"-5"`). -/
def scanNumber (s : List Char) : Option (ℚ × List Char) :=
  let sgn : ℚ × List Char :=
    match s with
    | '-' :: r => (-1, r)
    | '+' :: r => (1, r)
    | r => (1, r)
  let s1 := sgn.2
  let ip := s1.takeWhile Char.isDigit
  let s2 := s1.dropWhile Char.isDigit
  let fr : List Char × List Char :=
    match s2 with
    | '.' :: r => (r.takeWhile Char.isDigit, r.dropWhile Char.isDigit)
    | r => ([], r)
  if ip.isEmpty && fr.1.isEmpty then none
  else
    let mant : ℚ := sgn.1 * ((natOfDigits ip 0 : ℚ) +
      (natOfDigits fr.1 0 : ℚ) / ((10 : ℚ) ^ fr.1.length))
    let s3 := fr.2
    let ex : ℚ × List Char :=
      match s3 with
      | 'e' :: '-' :: r =>
        let ds := r.takeWhile Char.isDigit
        if ds.isEmpty then (1, s3)
        else (((10 : ℚ) ^ natOfDigits ds 0)⁻¹, r.dropWhile Char.isDigit)
      | 'e' :: '+' :: r =>
        let ds := r.takeWhile Char.isDigit
        if ds.isEmpty then (1, s3)
        else ((10 : ℚ) ^ natOfDigits ds 0, r.dropWhile Char.isDigit)
      | 'e' :: r =>
        let ds := r.takeWhile Char.isDigit
        if ds.isEmpty then (1, s3)
        else ((10 : ℚ) ^ natOfDigits ds 0, r.dropWhile Char.isDigit)
      | 'E' :: '-' :: r =>
        let ds := r.takeWhile Char.isDigit
        if ds.isEmpty then (1, s3)
        else (((10 : ℚ) ^ natOfDigits ds 0)⁻¹, r.dropWhile Char.isDigit)
      | 'E' :: '+' :: r =>
        let ds := r.takeWhile Char.isDigit
        if ds.isEmpty then (1, s3)
        else ((10 : ℚ) ^ natOfDigits ds 0, r.dropWhile Char.isDigit)
      | 'E' :: r =>
        let ds := r.takeWhile Char.isDigit
        if ds.isEmpty then (1, s3)
        else ((10 : ℚ) ^ natOfDigits ds 0, r.dropWhile Char.isDigit)
      | r => (1, r)
    some (mant * ex.1, ex.2)

/-- JavaScript `Number(tok)` on a whitespace-free token (decimal forms;
`none` models `NaN`).  The empty string converts to `0`. -/
def jsNumber (s : List Char) : Option ℚ :=
  if s.isEmpty then some 0
  else
    match scanNumber s with
    | some (q, []) => some q
    | _ => none

/-- JavaScript `parseFloat` restricted to the `[\d.]+` tokens the width/
height regexes capture: value of the longest numeric prefix, `none`
models `NaN` (e.g. on `"."`). -/
def jsParseFloat (s : List Char) : Option ℚ :=
  match scanNumber s with
  | some (q, _) => some q
  | none => none

/-- One attempt of `/viewBox="([^"]+)"/i` at the head of the input:
the captured (nonempty) value when the pattern matches here. -/
def vbMatchAt (s : List Char) : Option (List Char) :=
  if ciStarts vbPat s then
    let r := s.drop 9
    let v := r.takeWhile (· != '"')
    if v.isEmpty then none
    else
      match r.drop v.length with
      | '"' :: _ => some v
      | _ => none
  else none
where vbPat : List Char := ['v', 'i', 'e', 'w', 'b', 'o', 'x', '=', '"']

/-- First match of `/viewBox="([^"]+)"/i` anywhere in the text
(`content.match(...)`, step 1 of `scaleSvg`). -/
def findViewBox : List Char → Option (List Char)
  | [] => none
  | c :: r =>
    match vbMatchAt (c :: r) with
    | some v => some v
    | none => findViewBox r

/-- Step 1 of `scaleSvg`: the viewBox-derived frame, available exactly
when the captured value splits into four tokens that all convert to
numbers (`parts.length === 4 && parts.every(n => !isNaN(n))`). -/
def viewBoxFrame (s : List Char) : Option (ℚ × ℚ × ℚ × ℚ) :=
  match findViewBox s with
  | none => none
  | some v =>
    match (splitWS (trimWS v)).map jsNumber with
    | [some a, some b, some w, some h] => some (a, b, w, h)
    | _ => none

/-- One attempt of `/\swidth="([\d.]+)(px)?"/i` (resp. `height`) at the
head of the input: the captured numeric token.  `name` is the lowercase
`name="` pattern. -/
def dimAttrMatchAt (name : List Char) (s : List Char) : Option (List Char) :=
  match s with
  | [] => none
  | c :: r =>
    if isWS c && ciStarts name r then
      let r2 := r.drop name.length
      let t := r2.takeWhile fun c => c.isDigit || c == '.'
      if t.isEmpty then none
      else
        let r3 := r2.drop t.length
        if ciStarts pxQuote r3 then some t
        else
          match r3 with
          | '"' :: _ => some t
          | _ => none
    else none
where pxQuote : List Char := ['p', 'x', '"']

/-- First match of a sized-attribute regex anywhere in the text. -/
def findDimAttr (name : List Char) : List Char → Option (List Char)
  | [] => none
  | c :: r =>
    match dimAttrMatchAt name (c :: r) with
    | some t => some t
    | none => findDimAttr name r

def widthPat : List Char := ['w', 'i', 'd', 't', 'h', '=', '"']

def heightPat : List Char := ['h', 'e', 'i', 'g', 'h', 't', '=', '"']

/-- `parseFloat(wMatch[1])` of step 2; `none` covers both a missing
match and a `NaN` value (either way `scaleSvg` falls through to the
passthrough check). -/
def findWidthAttr (s : List Char) : Option ℚ :=
  match findDimAttr widthPat s with
  | some t => jsParseFloat t
  | none => none

def findHeightAttr (s : List Char) : Option ℚ :=
  match findDimAttr heightPat s with
  | some t => jsParseFloat t
  | none => none

/-- Steps 1-2 of `scaleSvg`: `(minX, minY, oldWidth, oldHeight)`.  The
width/height fallback runs only when the viewBox branch assigned
nothing (`oldWidth == null || oldHeight == null`). -/
def resolveDims (s : List Char) : Option (ℚ × ℚ × ℚ × ℚ) :=
  match viewBoxFrame s with
  | some f => some f
  | none =>
    match findWidthAttr s, findHeightAttr s with
    | some w, some h => some (0, 0, w, h)
    | _, _ => none

/-- Modelled from the spec: the PathCommand data model of sec. 3 (the
concrete type lives in the external `svgpath` library, absent from
`src/`).  Each variant carries a `rel` flag (lowercase command letter)
and its fixed-arity operands; `closePath` keeps the letter case only. -/
inductive PathCmd where
  | moveTo (rel : Bool) (x y : ℚ)
  | lineTo (rel : Bool) (x y : ℚ)
  | hLineTo (rel : Bool) (x : ℚ)
  | vLineTo (rel : Bool) (y : ℚ)
  | cubicTo (rel : Bool) (x1 y1 x2 y2 x y : ℚ)
  | smoothCubicTo (rel : Bool) (x2 y2 x y : ℚ)
  | quadTo (rel : Bool) (x1 y1 x y : ℚ)
  | smoothQuadTo (rel : Bool) (x y : ℚ)
  | arcTo (rel : Bool) (rx ry rot : ℚ) (laf sf : Bool) (x y : ℚ)
  | closePath (rel : Bool)
  deriving DecidableEq

/-- The command kinds that take operands. -/
inductive CmdKind where
  | move | line | hline | vline | cubic | scubic | quad | squad | arc
  deriving DecidableEq

/-- Command letter table (`M m L l H h V v C c S s Q q T t A a`);
uppercase means absolute.  `Z`/`z` is handled separately. -/
def kindOf (c : Char) : Option (CmdKind × Bool) :=
  match c with
  | 'M' => some (.move, false)
  | 'm' => some (.move, true)
  | 'L' => some (.line, false)
  | 'l' => some (.line, true)
  | 'H' => some (.hline, false)
  | 'h' => some (.hline, true)
  | 'V' => some (.vline, false)
  | 'v' => some (.vline, true)
  | 'C' => some (.cubic, false)
  | 'c' => some (.cubic, true)
  | 'S' => some (.scubic, false)
  | 's' => some (.scubic, true)
  | 'Q' => some (.quad, false)
  | 'q' => some (.quad, true)
  | 'T' => some (.squad, false)
  | 't' => some (.squad, true)
  | 'A' => some (.arc, false)
  | 'a' => some (.arc, true)
  | _ => none

/-- Whitespace and commas are equivalent, optional separators. -/
def skipSeps (s : List Char) : List Char :=
  s.dropWhile fun c => isWS c || c == ','

def readNum (s : List Char) : Option (ℚ × List Char) :=
  scanNumber (skipSeps s)

/-- Arc flags are single `0`/`1` digits, possibly unseparated. -/
def readFlag (s : List Char) : Option (Bool × List Char) :=
  match skipSeps s with
  | '0' :: r => some (false, r)
  | '1' :: r => some (true, r)
  | _ => none

/-- Read one operand group of the given kind. -/
def readGroup (k : CmdKind) (rel : Bool) (s : List Char) :
    Option (PathCmd × List Char) :=
  match k with
  | .move => do
    let (x, s) ← readNum s
    let (y, s) ← readNum s
    pure (.moveTo rel x y, s)
  | .line => do
    let (x, s) ← readNum s
    let (y, s) ← readNum s
    pure (.lineTo rel x y, s)
  | .hline => do
    let (x, s) ← readNum s
    pure (.hLineTo rel x, s)
  | .vline => do
    let (y, s) ← readNum s
    pure (.vLineTo rel y, s)
  | .cubic => do
    let (x1, s) ← readNum s
    let (y1, s) ← readNum s
    let (x2, s) ← readNum s
    let (y2, s) ← readNum s
    let (x, s) ← readNum s
    let (y, s) ← readNum s
    pure (.cubicTo rel x1 y1 x2 y2 x y, s)
  | .scubic => do
    let (x2, s) ← readNum s
    let (y2, s) ← readNum s
    let (x, s) ← readNum s
    let (y, s) ← readNum s
    pure (.smoothCubicTo rel x2 y2 x y, s)
  | .quad => do
    let (x1, s) ← readNum s
    let (y1, s) ← readNum s
    let (x, s) ← readNum s
    let (y, s) ← readNum s
    pure (.quadTo rel x1 y1 x y, s)
  | .squad => do
    let (x, s) ← readNum s
    let (y, s) ← readNum s
    pure (.smoothQuadTo rel x y, s)
  | .arc => do
    let (rx, s) ← readNum s
    let (ry, s) ← readNum s
    let (rot, s) ← readNum s
    let (laf, s) ← readFlag s
    let (sf, s) ← readFlag s
    let (x, s) ← readNum s
    let (y, s) ← readNum s
    pure (.arcTo rel rx ry rot laf sf x y, s)

/-- Does this character begin a numeric operand (so an omitted command
letter repeats the previous command)? -/
def isNumStart (c : Char) : Bool :=
  c.isDigit || c == '.' || c == '-' || c == '+'

/-- Modelled from the spec: the path-data scanner of sec. 4.2 (the real
one lives in the external `svgpath` library, absent from `src/`).
`pending` holds the command whose operand groups are being consumed;
a group followed by more numeric input re-emits the same variant and
relativity.  Any failure (unknown letter, bad operand, bad flag,
trailing garbage) makes the whole parse fail. -/
def parseStep : Nat → Option (CmdKind × Bool) → List Char → List PathCmd →
    Option (List PathCmd)
  | 0, _, _, _ => none
  | fuel + 1, some (k, rel), s, acc =>
    match readGroup k rel s with
    | none => none
    | some (cmd, rest) =>
      match skipSeps rest with
      | [] => some (cmd :: acc).reverse
      | c :: r =>
        if isNumStart c then parseStep fuel (some (k, rel)) (c :: r) (cmd :: acc)
        else parseStep fuel none (c :: r) (cmd :: acc)
  | fuel + 1, none, s, acc =>
    match skipSeps s with
    | [] => some acc.reverse
    | c :: r =>
      if c == 'Z' || c == 'z' then
        parseStep fuel none r (.closePath (c == 'z') :: acc)
      else
        match kindOf c with
        | none => none
        | some (k, rel) => parseStep fuel (some (k, rel)) r acc

/-- Parse a whole `d` attribute value; `none` is `MalformedPathData`. -/
def parsePath (d : List Char) : Option (List PathCmd) :=
  parseStep (d.length + 2) none d []

/-- Modelled from the spec: translation step of the Affine Transformer
(sec. 4.3): absolute coordinate pairs are shifted, relative pairs and
arc radii/rotation/flags are untouched. -/
def translateCmd (tx ty : ℚ) : PathCmd → PathCmd
  | .moveTo false x y => .moveTo false (x + tx) (y + ty)
  | .lineTo false x y => .lineTo false (x + tx) (y + ty)
  | .hLineTo false x => .hLineTo false (x + tx)
  | .vLineTo false y => .vLineTo false (y + ty)
  | .cubicTo false x1 y1 x2 y2 x y =>
    .cubicTo false (x1 + tx) (y1 + ty) (x2 + tx) (y2 + ty) (x + tx) (y + ty)
  | .smoothCubicTo false x2 y2 x y =>
    .smoothCubicTo false (x2 + tx) (y2 + ty) (x + tx) (y + ty)
  | .quadTo false x1 y1 x y =>
    .quadTo false (x1 + tx) (y1 + ty) (x + tx) (y + ty)
  | .smoothQuadTo false x y => .smoothQuadTo false (x + tx) (y + ty)
  | .arcTo false rx ry rot laf sf x y =>
    .arcTo false rx ry rot laf sf (x + tx) (y + ty)
  | c => c

/-- Modelled from the spec: scaling step of the Affine Transformer
(sec. 4.3): every x-operand times `sx`, every y-operand times `sy`,
arc radii scaled independently, rotation and flags untouched. -/
def scaleCmd (sx sy : ℚ) : PathCmd → PathCmd
  | .moveTo rel x y => .moveTo rel (x * sx) (y * sy)
  | .lineTo rel x y => .lineTo rel (x * sx) (y * sy)
  | .hLineTo rel x => .hLineTo rel (x * sx)
  | .vLineTo rel y => .vLineTo rel (y * sy)
  | .cubicTo rel x1 y1 x2 y2 x y =>
    .cubicTo rel (x1 * sx) (y1 * sy) (x2 * sx) (y2 * sy) (x * sx) (y * sy)
  | .smoothCubicTo rel x2 y2 x y =>
    .smoothCubicTo rel (x2 * sx) (y2 * sy) (x * sx) (y * sy)
  | .quadTo rel x1 y1 x y =>
    .quadTo rel (x1 * sx) (y1 * sy) (x * sx) (y * sy)
  | .smoothQuadTo rel x y => .smoothQuadTo rel (x * sx) (y * sy)
  | .arcTo rel rx ry rot laf sf x y =>
    .arcTo rel (rx * sx) (ry * sy) rot laf sf (x * sx) (y * sy)
  | .closePath rel => .closePath rel

/-- The per-path transform of `scaleSvg` step 3: `translate(-minX,
-minY)` (applied only when the viewBox origin is nonzero, as in the
source) followed by `scale(scaleX, scaleY)`. -/
def transformCmds (mx my sx sy : ℚ) (cs : List PathCmd) : List PathCmd :=
  let cs1 := if mx ≠ 0 ∨ my ≠ 0 then cs.map (translateCmd (-mx) (-my)) else cs
  cs1.map (scaleCmd sx sy)

/-- Strip trailing zero digits of a fraction part. -/
def trimZeros (s : List Char) : List Char :=
  (s.reverse.dropWhile (· == '0')).reverse

/-- Decimal rendering of a rational: integer part, then up to 32 exact
fraction digits with trailing zeros removed (every value the pipeline
produces from decimal inputs terminates well within that).  Integers
render with no point, matching minimal formatting (sec. 4.4). -/
def fmtQ (q : ℚ) : String :=
  let n := q.num.natAbs
  let d := q.den
  let ip := n / d
  let frac := n % d * 10 ^ 32 / d
  let fds := trimZeros (List.replicate (32 - (Nat.repr frac).length) '0' ++
    (Nat.repr frac).data)
  (if q < 0 then "-" else "") ++ Nat.repr ip ++
    (if fds.isEmpty then "" else "." ++ String.mk fds)

/-- Minimal separator rule of sec. 4.4: no separator before a negative
number, one space otherwise; nothing between the letter and the first
operand. -/
def joinOps : List String → String
  | [] => ""
  | o :: os => o ++ String.join (os.map fun t =>
      if t.data.head? == some '-' then t else " " ++ t)

def flagStr (b : Bool) : String := if b then "1" else "0"

/-- Modelled from the spec: the Path Serializer of sec. 4.4; the letter
case follows the stored relativity exactly. -/
def serializeCmd : PathCmd → String
  | .moveTo rel x y => (if rel then "m" else "M") ++ joinOps [fmtQ x, fmtQ y]
  | .lineTo rel x y => (if rel then "l" else "L") ++ joinOps [fmtQ x, fmtQ y]
  | .hLineTo rel x => (if rel then "h" else "H") ++ joinOps [fmtQ x]
  | .vLineTo rel y => (if rel then "v" else "V") ++ joinOps [fmtQ y]
  | .cubicTo rel x1 y1 x2 y2 x y =>
    (if rel then "c" else "C") ++
      joinOps [fmtQ x1, fmtQ y1, fmtQ x2, fmtQ y2, fmtQ x, fmtQ y]
  | .smoothCubicTo rel x2 y2 x y =>
    (if rel then "s" else "S") ++ joinOps [fmtQ x2, fmtQ y2, fmtQ x, fmtQ y]
  | .quadTo rel x1 y1 x y =>
    (if rel then "q" else "Q") ++ joinOps [fmtQ x1, fmtQ y1, fmtQ x, fmtQ y]
  | .smoothQuadTo rel x y =>
    (if rel then "t" else "T") ++ joinOps [fmtQ x, fmtQ y]
  | .arcTo rel rx ry rot laf sf x y =>
    (if rel then "a" else "A") ++
      joinOps [fmtQ rx, fmtQ ry, fmtQ rot, flagStr laf, flagStr sf, fmtQ x, fmtQ y]
  | .closePath rel => if rel then "z" else "Z"

def serializePath (cs : List PathCmd) : String :=
  String.join (cs.map serializeCmd)

/-- One candidate split for the greedy `([^>]*)` group of
`/<path([^>]*)d="([^"]+)"([^>]*)>/i`, with `r` the text after
`<path`: try `pre := r.take a`; on success return the `d` and trailing
groups plus the matched length within `r`.  The later groups are
deterministic: `([^"]+)` must stop at the next `"` and `([^>]*)` at the
next `>`. -/
def preCand (r : List Char) (a : Nat) : Option (List Char × List Char × Nat) :=
  let rest := r.drop a
  if ciStarts dQuote rest then
    let afterD := rest.drop 3
    let dspan := afterD.takeWhile (· != '"')
    if dspan.isEmpty then none
    else
      match afterD.drop dspan.length with
      | '"' :: afterQ =>
        let post := afterQ.takeWhile (· != '>')
        match afterQ.drop post.length with
        | '>' :: _ => some (dspan, post, a + 3 + dspan.length + 1 + post.length + 1)
        | _ => none
      | _ => none
  else none
where dQuote : List Char := ['d', '=', '"']

/-- Greedy backtracking over the first group: longest `pre` first. -/
def tryPreFrom : Nat → List Char → Option (Nat × List Char × List Char × Nat)
  | a, r =>
    match preCand r a with
    | some (d, post, len) => some (a, d, post, len)
    | none =>
      match a with
      | 0 => none
      | a' + 1 => tryPreFrom a' r

/-- One attempt of the path-tag regex at the head of the input:
`(total match length, pre, d, post)`. -/
def pathMatchAt (s : List Char) : Option (Nat × List Char × List Char × List Char) :=
  if ciStarts pathPat s then
    let r := s.drop 5
    match tryPreFrom (r.takeWhile (· != '>')).length r with
    | some (a, d, post, len) => some (5 + len, r.take a, d, post)
    | none => none
  else none
where pathPat : List Char := ['<', 'p', 'a', 't', 'h']

/-- Leftmost match of the path-tag regex: the skipped text and the
match data. -/
def findPathTag : List Char → Option (List Char × Nat × List Char × List Char × List Char)
  | [] => none
  | c :: r =>
    match pathMatchAt (c :: r) with
    | some (len, pre, d, post) => some ([], len, pre, d, post)
    | none =>
      match findPathTag r with
      | some (b, len, pre, d, post) => some (c :: b, len, pre, d, post)
      | none => none

/-- The replacement callback of `scaleSvg` step 3 applied to one matched
tag: a `d` that parses is re-serialized through the transform into the
template `<path${pre}d="${newD}"${post}>`; a `d` that fails to parse
leaves the matched text unmodified (spec secs. 4.5 and 7). -/
def rewriteTag (mx my sx sy : ℚ) (whole pre d post : List Char) : List Char :=
  match parsePath d with
  | some cmds =>
    ('<' :: 'p' :: 'a' :: 't' :: 'h' :: pre) ++
      ('d' :: '=' :: '"' :: (serializePath (transformCmds mx my sx sy cmds)).data) ++
      ('"' :: post) ++ ['>']
  | none => whole

/-- The global path replacement (`content.replace(/<path.../gi, cb)`):
scan, rewrite each leftmost match, continue after it. -/
def replacePathsAux (mx my sx sy : ℚ) : Nat → List Char → List Char
  | 0, s => s
  | fuel + 1, s =>
    match findPathTag s with
    | none => s
    | some (b, len, pre, d, post) =>
      let whole := (s.drop b.length).take len
      let rest := (s.drop b.length).drop len
      b ++ rewriteTag mx my sx sy whole pre d post ++
        replacePathsAux mx my sx sy fuel rest
def replacePaths (mx my sx sy : ℚ) (s : List Char) : List Char :=
  replacePathsAux mx my sx sy (s.length + 1) s

def vbEqPat : List Char := ['v', 'i', 'e', 'w', 'b', 'o', 'x', '=', '"']

/-- One attempt of `/\s(width|height|viewBox)="[^"]*"/i` at the head of
the input: the match length.  The value group may be empty; the
alternatives are tried in source order. -/
def sizeAttrMatchAt (s : List Char) : Option Nat :=
  match s with
  | [] => none
  | c :: r =>
    if isWS c then
      match tryName widthPat r with
      | some n => some n
      | none =>
        match tryName heightPat r with
        | some n => some n
        | none => tryName vbEqPat r
    else none
where
  tryName (name : List Char) (r : List Char) : Option Nat :=
    if ciStarts name r then
      let v := (r.drop name.length).takeWhile (· != '"')
      match (r.drop name.length).drop v.length with
      | '"' :: _ => some (1 + name.length + v.length + 1)
      | _ => none
    else none

/-- Leftmost match of the sizing-attribute regex. -/
def findSizeAttr : List Char → Option (List Char × Nat)
  | [] => none
  | c :: r =>
    match sizeAttrMatchAt (c :: r) with
    | some len => some ([], len)
    | none =>
      match findSizeAttr r with
      | some (b, len) => some (c :: b, len)
      | none => none

/-- The global removal `content.replace(/\s(width|height|viewBox)="[^"]*"/gi, "")`:
each leftmost match is dropped, scanning resumes after it (the output
is not rescanned). -/
def stripSizeAttrsAux : Nat → List Char → List Char
  | 0, s => s
  | fuel + 1, s =>
    match findSizeAttr s with
    | none => s
    | some (b, len) =>
      b ++ stripSizeAttrsAux fuel ((s.drop b.length).drop len)
def stripSizeAttrs (s : List Char) : List Char :=
  stripSizeAttrsAux (s.length + 1) s

/-- One attempt of `/<svg([^>]*)>/i` at the head of the input:
`(total match length, captured group)`. -/
def svgTagAt (s : List Char) : Option (Nat × List Char) :=
  if ciStarts svgPat s then
    let g := (s.drop 4).takeWhile (· != '>')
    match (s.drop 4).drop g.length with
    | '>' :: _ => some (4 + g.length + 1, g)
    | _ => none
  else none
where svgPat : List Char := ['<', 's', 'v', 'g']

/-- Leftmost match of the svg-tag regex. -/
def findSvgTag : List Char → Option (List Char × Nat × List Char)
  | [] => none
  | c :: r =>
    match svgTagAt (c :: r) with
    | some (len, g) => some ([], len, g)
    | none =>
      match findSvgTag r with
      | some (b, len, g) => some (c :: b, len, g)
      | none => none

/-- The canonical sizing attributes inserted by `scaleSvg` step 4:
` width="S" height="S" viewBox="0 0 S S"`. -/
def canonicalAttrs (size : ℚ) : List Char :=
  (" width=\"" ++ fmtQ size ++ "\" height=\"" ++ fmtQ size ++
    "\" viewBox=\"0 0 " ++ fmtQ size ++ " " ++ fmtQ size ++ "\"").data

/-- `content.replace(/<svg([^>]*)>/i, template)`: splice the canonical
attributes into the first svg tag (a non-global replace; no match means
no change).  The tag name is re-emitted lowercase by the template. -/
def patchSvgTag (size : ℚ) (s : List Char) : List Char :=
  match findSvgTag s with
  | none => s
  | some (b, len, g) =>
    b ++ ('<' :: 's' :: 'v' :: 'g' :: g) ++ canonicalAttrs size ++ ['>'] ++
      (s.drop b.length).drop len

/-- The whole of `scaleSvg` on character lists: resolve the source
frame, bail out unchanged on failure or on a falsy (zero) width or
height, otherwise rewrite every path, strip the sizing attributes
document-wide and patch the first svg tag. -/
def scaleSvgL (s : List Char) (newSize : ℚ) : List Char :=
  match resolveDims s with
  | none => s
  | some (mx, my, w, h) =>
    if w = 0 ∨ h = 0 then s
    else
      patchSvgTag newSize
        (stripSizeAttrs (replacePaths mx my (newSize / w) (newSize / h) s))

/-- The core entry point `scaleSvg(content, newSize = 24)`. -/
def scaleSvg (content : String) (newSize : ℚ := 24) : String :=
  ⟨scaleSvgL content.data newSize⟩

/-- `scaleSvg` invoked with its size argument omitted. -/
def scaleSvgDefault (content : String) : String :=
  scaleSvg content

/-- Width/height fallback as spec sec. 4.1 rule 2 words it: both
attributes present, each a number strictly greater than zero. -/
def specWH (s : List Char) : Option (ℚ × ℚ × ℚ × ℚ) :=
  match findWidthAttr s, findHeightAttr s with
  | some w, some h => if 0 < w ∧ 0 < h then some (0, 0, w, h) else none
  | _, _ => none

/-- The dimension-resolution policy exactly as claim C2 / spec sec. 4.1
state it: the viewBox frame only when `w > 0` and `h > 0`, otherwise
the width/height rule, otherwise failure. -/
def specResolveDims (s : List Char) : Option (ℚ × ℚ × ℚ × ℚ) :=
  match viewBoxFrame s with
  | some (a, b, w, h) => if 0 < w ∧ 0 < h then some (a, b, w, h) else specWH s
  | none => specWH s

/-- The first svg tag of a document, verbatim. -/
def rootTag (s : List Char) : Option (List Char) :=
  match findSvgTag s with
  | some (b, len, _) => some ((s.drop b.length).take len)
  | none => none

/-- Number of whitespace-preceded, case-insensitive occurrences of
`name` (an attribute-name pattern such as `width=`). -/
def countAttrOcc (name : List Char) : List Char → Nat
  | [] => 0
  | c :: r => (if isWS c && ciStarts name r then 1 else 0) + countAttrOcc name r

def widthEq : List Char := ['w', 'i', 'd', 't', 'h', '=']

def heightEq : List Char := ['h', 'e', 'i', 'g', 'h', 't', '=']

def viewboxEq : List Char := ['v', 'i', 'e', 'w', 'b', 'o', 'x', '=']

/-- Claim C4's success postcondition: the root svg tag carries exactly
one width, one height and one viewBox attribute, and they are the
canonical `width="S" height="S" viewBox="0 0 S S"`. -/
def rootCarriesExactly (out : String) (size : ℚ) : Bool :=
  match rootTag out.data with
  | none => false
  | some t =>
    countAttrOcc widthEq t == 1 && countAttrOcc heightEq t == 1 &&
      countAttrOcc viewboxEq t == 1 &&
      (canonicalAttrs size ++ ['>']).isSuffixOf t

/-- Case-sensitive substring test. -/
def containsSub (pat : List Char) : List Char → Bool
  | [] => pat.isEmpty
  | c :: r => pat.isPrefixOf (c :: r) || containsSub pat r

/-- One match of the path-tag regex together with the text skipped
before it: the decomposition that the global replace walks. -/
structure PathSeg where
  before : List Char
  whole : List Char
  pre : List Char
  d : List Char
  post : List Char

/-- The successive leftmost matches of the path-tag regex and the
trailing text after the last one. -/
def pathSegsAux : Nat → List Char → List PathSeg × List Char
  | 0, s => ([], s)
  | fuel + 1, s =>
    match findPathTag s with
    | none => ([], s)
    | some (b, len, pre, d, post) =>
      let p := pathSegsAux fuel ((s.drop b.length).drop len)
      (⟨b, (s.drop b.length).take len, pre, d, post⟩ :: p.1, p.2)

def pathSegs (s : List Char) : List PathSeg × List Char :=
  pathSegsAux (s.length + 1) s

/-- Per-segment output of the rewrite: the gap text verbatim, then the
tag as the callback leaves it (transformed when `d` parses, the
original text when it does not). -/
def renderSeg (mx my sx sy : ℚ) (g : PathSeg) : List Char :=
  g.before ++ rewriteTag mx my sx sy g.whole g.pre g.d g.post

def renderSegs (mx my sx sy : ℚ) (p : List PathSeg × List Char) : List Char :=
  (p.1.map (renderSeg mx my sx sy)).flatten ++ p.2

/-- Reassembling the untouched decomposition. -/
def origSegs (p : List PathSeg × List Char) : List Char :=
  (p.1.map fun g => g.before ++ g.whole).flatten ++ p.2

/-- The successive leftmost matches of the sizing-attribute regex:
`(gap, matched text)` pairs and the trailing text. -/
def sizeSegsAux : Nat → List Char → List (List Char × List Char) × List Char
  | 0, s => ([], s)
  | fuel + 1, s =>
    match findSizeAttr s with
    | none => ([], s)
    | some (b, len) =>
      let p := sizeSegsAux fuel ((s.drop b.length).drop len)
      ((b, (s.drop b.length).take len) :: p.1, p.2)

def sizeSegs (s : List Char) : List (List Char × List Char) × List Char :=
  sizeSegsAux (s.length + 1) s

/-! Concrete documents used by the examples, counterexamples and
witnesses. -/

/-- The spec's scale-correctness test: viewBox `0 0 48 48`, an absolute
line to `(48,48)`. -/
def docScale : String := "<svg viewBox=\"0 0 48 48\"><path d=\"M0 0L48 48\"/></svg>"

def outScale : String :=
  "<svg width=\"24\" height=\"24\" viewBox=\"0 0 24 24\"><path d=\"M0 0L24 24\"/></svg>"

/-- The spec's origin-correctness test: viewBox `10 10 20 20`, the point
`(20,20)`. -/
def docOrigin : String := "<svg viewBox=\"10 10 20 20\"><path d=\"M20 20\"/></svg>"

def outOrigin : String :=
  "<svg width=\"24\" height=\"24\" viewBox=\"0 0 24 24\"><path d=\"M12 12\"/></svg>"

/-- A zero-width viewBox next to valid width/height attributes. -/
def docZeroVB : String :=
  "<svg viewBox=\"0 0 0 10\" width=\"10\" height=\"10\"><path d=\"M5 5\"/></svg>"

/-- No viewBox and no width/height attributes at all. -/
def docNoDims : String := "<svg><path d=\"M1 1\"/></svg>"

/-- One well-formed and one malformed path. -/
def docTwoPaths : String :=
  "<svg viewBox=\"0 0 48 48\"><path d=\"M0 0L48 48\"/><path d=\"Mxx\"/></svg>"

/-- Stripping ` width="8"` out of `wid width="8"th="9"` splices the
surrounding text into a brand-new `width="9"` attribute that the
root-tag patch then keeps alongside the canonical one. -/
def docResidual : String :=
  "<svg viewBox=\"0 0 12 12\" wid width=\"8\"th=\"9\"><path d=\"M6 6\"/></svg>"

def outResidual : String :=
  "<svg width=\"9\" width=\"24\" height=\"24\" viewBox=\"0 0 24 24\"><path d=\"M12 12\"/></svg>"

/-- The captured group of the svg tag left after stripping
`docResidual`. -/
def gResidual : List Char := [' ', 'w', 'i', 'd', 't', 'h', '=', '"', '9', '"']

/-- A nested rect whose width/height sit on a non-root element. -/
def docRect : String :=
  "<svg viewBox=\"0 0 12 12\"><rect width=\"5\" height=\"5\"/></svg>"

def outRect : String :=
  "<svg width=\"24\" height=\"24\" viewBox=\"0 0 24 24\"><rect/></svg>"

/-- The rect's width attribute, present in `docRect` but not in its
output. -/
def patWidthFive : List Char := ['w', 'i', 'd', 't', 'h', '=', '"', '5', '"']

/-- The only viewBox sits (uppercase) on a nested symbol element. -/
def docNested : String :=
  "<svg><symbol VIEWBOX=\"0 0 48 48\"></symbol><path d=\"M48 48\"/></svg>"

def outNested : String :=
  "<svg width=\"24\" height=\"24\" viewBox=\"0 0 24 24\"><symbol></symbol><path d=\"M24 24\"/></svg>"

/-- An already-normalized document (viewBox `0 0 24 24`). -/
def docIdem : String := "<svg viewBox=\"0 0 24 24\"><path d=\"M1 2L3 4\"/></svg>"

def cmdsIdem : List PathCmd := [.moveTo false 1 2, .lineTo false 3 4]

def dIdem : List Char := ['M', '1', ' ', '2', 'L', '3', ' ', '4']

/-- A path-data string that fails to tokenize. -/
def dBad : List Char := ['M', 'x', 'x']

def tagBad : List Char :=
  ['<', 'p', 'a', 't', 'h', ' ', 'd', '=', '"', 'M', 'x', 'x', '"', '/', '>']

/-! Helper lemmas. -/

theorem scaleCmd_one (c : PathCmd) : scaleCmd 1 1 c = c := by
  cases c <;> simp [scaleCmd]

/-- The text a leftmost path-tag match reports as skipped really is the
prefix of the input before the match. -/
theorem findPathTag_before {s : List Char}
    {t : List Char × Nat × List Char × List Char × List Char}
    (h : findPathTag s = some t) : t.1 ++ s.drop t.1.length = s := by
  induction s generalizing t with
  | nil => simp [findPathTag] at h
  | cons c r ih =>
    rw [findPathTag] at h
    cases hm : pathMatchAt (c :: r) with
    | some v =>
      rw [hm] at h
      obtain ⟨len, pre, d, post⟩ := v
      cases h
      simp
    | none =>
      rw [hm] at h
      cases hf : findPathTag r with
      | none => rw [hf] at h; cases h
      | some w =>
        rw [hf] at h
        obtain ⟨b, len, pre, d, post⟩ := w
        cases h
        have := ih hf
        simp only [List.length_cons, List.drop_succ_cons, List.cons_append,
          List.cons.injEq, true_and]
        exact this

/-- The path-segment decomposition reassembles to the input. -/
theorem origSegs_pathSegsAux : ∀ (fuel : Nat) (s : List Char),
    origSegs (pathSegsAux fuel s) = s := by
  intro fuel
  induction fuel with
  | zero => intro s; simp [pathSegsAux, origSegs]
  | succ n ih =>
    intro s
    rw [pathSegsAux]
    cases hf : findPathTag s with
    | none => simp [origSegs]
    | some t =>
      obtain ⟨b, len, pre, d, post⟩ := t
      have h1 := ih ((s.drop b.length).drop len)
      simp only [origSegs, List.map_cons, List.flatten_cons, List.append_assoc] at h1 ⊢
      rw [h1, List.take_append_drop]
      exact findPathTag_before hf

/-- The global path replacement is the segmentwise rewrite of the
leftmost-match decomposition. -/
theorem replacePathsAux_renders (mx my sx sy : ℚ) :
    ∀ (fuel : Nat) (s : List Char),
      replacePathsAux mx my sx sy fuel s =
        renderSegs mx my sx sy (pathSegsAux fuel s) := by
  intro fuel
  induction fuel with
  | zero => intro s; simp [replacePathsAux, pathSegsAux, renderSegs]
  | succ n ih =>
    intro s
    rw [replacePathsAux, pathSegsAux]
    cases hf : findPathTag s with
    | none => simp [renderSegs]
    | some t =>
      obtain ⟨b, len, pre, d, post⟩ := t
      dsimp only
      rw [ih]
      simp [renderSegs, renderSeg, List.append_assoc]

/-- The text a leftmost sizing-attribute match reports as skipped really
is the prefix of the input before the match. -/
theorem findSizeAttr_before {s : List Char} {t : List Char × Nat}
    (h : findSizeAttr s = some t) : t.1 ++ s.drop t.1.length = s := by
  induction s generalizing t with
  | nil => simp [findSizeAttr] at h
  | cons c r ih =>
    rw [findSizeAttr] at h
    cases hm : sizeAttrMatchAt (c :: r) with
    | some v =>
      rw [hm] at h
      cases h
      simp
    | none =>
      rw [hm] at h
      cases hf : findSizeAttr r with
      | none => rw [hf] at h; cases h
      | some w =>
        rw [hf] at h
        obtain ⟨b, len⟩ := w
        cases h
        have := ih hf
        simp only [List.length_cons, List.drop_succ_cons, List.cons_append,
          List.cons.injEq, true_and]
        exact this

/-! The claims. -/

/-- C1: under a frame `(ox, oy, w, h)` and target size `S` the per-path
transform maps every absolute coordinate pair `(x, y)` to
`((x - ox) * (S / w), (y - oy) * (S / h))` and every relative pair
`(dx, dy)` to `(dx * (S / w), dy * (S / h))` (scaled, never
translated); concretely, viewBox `0 0 48 48` at `S = 24` sends the
absolute line to `(48, 48)` to `(24, 24)`, and viewBox `10 10 20 20`
at `S = 24` sends the point `(20, 20)` to `(12, 12)`. -/
theorem c1_pointwise_transform (ox oy w h S x y dx dy x1 y1 x2 y2 r1 r2 rot : ℚ)
    (laf sf : Bool) :
    transformCmds ox oy (S / w) (S / h)
        [.moveTo false x y, .lineTo false x y, .cubicTo false x1 y1 x2 y2 x y,
          .smoothCubicTo false x2 y2 x y, .quadTo false x1 y1 x y,
          .smoothQuadTo false x y, .arcTo false r1 r2 rot laf sf x y] =
      [.moveTo false ((x - ox) * (S / w)) ((y - oy) * (S / h)),
        .lineTo false ((x - ox) * (S / w)) ((y - oy) * (S / h)),
        .cubicTo false ((x1 - ox) * (S / w)) ((y1 - oy) * (S / h))
          ((x2 - ox) * (S / w)) ((y2 - oy) * (S / h))
          ((x - ox) * (S / w)) ((y - oy) * (S / h)),
        .smoothCubicTo false ((x2 - ox) * (S / w)) ((y2 - oy) * (S / h))
          ((x - ox) * (S / w)) ((y - oy) * (S / h)),
        .quadTo false ((x1 - ox) * (S / w)) ((y1 - oy) * (S / h))
          ((x - ox) * (S / w)) ((y - oy) * (S / h)),
        .smoothQuadTo false ((x - ox) * (S / w)) ((y - oy) * (S / h)),
        .arcTo false (r1 * (S / w)) (r2 * (S / h)) rot laf sf
          ((x - ox) * (S / w)) ((y - oy) * (S / h))] ∧
    transformCmds ox oy (S / w) (S / h)
        [.moveTo true dx dy, .lineTo true dx dy, .hLineTo true dx,
          .vLineTo true dy] =
      [.moveTo true (dx * (S / w)) (dy * (S / h)),
        .lineTo true (dx * (S / w)) (dy * (S / h)),
        .hLineTo true (dx * (S / w)), .vLineTo true (dy * (S / h))] ∧
    scaleSvg docScale 24 = outScale ∧
    scaleSvg docOrigin 24 = outOrigin := by
  refine ⟨?_, ?_, by with_unfolding_all rfl, by with_unfolding_all rfl⟩
  · unfold transformCmds
    split_ifs with hc
    · simp [translateCmd, scaleCmd, sub_eq_add_neg]
    · push_neg at hc
      obtain ⟨h1, h2⟩ := hc
      subst h1; subst h2
      simp [translateCmd, scaleCmd]
  · unfold transformCmds
    split_ifs with hc <;> simp [translateCmd, scaleCmd]

/-- C2 counterexample: with `viewBox="0 0 0 10"` (width not positive)
next to valid `width`/`height` attributes, the claimed policy resolves
via the width/height rule to frame `(0, 0, 10, 10)`, but the code takes
the viewBox assignment `(0, 0, 0, 10)` (no positivity check), so the
zero width then makes the whole call return the input unchanged. -/
theorem c2_counterexample :
    specResolveDims docZeroVB.data = some (0, 0, 10, 10) ∧
    resolveDims docZeroVB.data = some (0, 0, 0, 10) ∧
    scaleSvg docZeroVB 24 = docZeroVB :=
  ⟨by with_unfolding_all rfl, by with_unfolding_all rfl,
    by with_unfolding_all rfl⟩

/-- C2 amended: a viewBox whose value splits into four numeric tokens
always wins the resolution, with no positivity requirement — the
width/height fallback runs only when the viewBox is absent or
malformed; a zero frame width or height then yields whole-document
passthrough instead of a fallback. -/
theorem c2_amended (content : String) (S mx my w h : ℚ)
    (hvb : viewBoxFrame content.data = some (mx, my, w, h)) :
    resolveDims content.data = some (mx, my, w, h) ∧
    ((w = 0 ∨ h = 0) → scaleSvg content S = content) := by
  have hres : resolveDims content.data = some (mx, my, w, h) := by
    unfold resolveDims
    rw [hvb]
  refine ⟨hres, fun hz => ?_⟩
  obtain ⟨l⟩ := content
  unfold scaleSvg scaleSvgL
  dsimp only at hres ⊢
  rw [hres]
  simp [hz]

theorem c2_amended_witness :
    viewBoxFrame docZeroVB.data = some (0, 0, 0, 10) ∧
    (resolveDims docZeroVB.data = some (0, 0, 0, 10) ∧
      (((0 : ℚ) = 0 ∨ (10 : ℚ) = 0) → scaleSvg docZeroVB 24 = docZeroVB)) :=
  ⟨by with_unfolding_all rfl,
    c2_amended docZeroVB 24 0 0 0 10 (by with_unfolding_all rfl)⟩

/-- C5: a document with no usable viewBox and no width/height attribute
pair is returned byte-for-byte unchanged. -/
theorem c5_passthrough (content : String) (S : ℚ)
    (hvb : viewBoxFrame content.data = none)
    (hwh : findWidthAttr content.data = none ∨
      findHeightAttr content.data = none) :
    scaleSvg content S = content := by
  have hres : resolveDims content.data = none := by
    unfold resolveDims
    rw [hvb]
    rcases hwh with hw | hh
    · rw [hw]
    · rw [hh]; cases findWidthAttr content.data <;> rfl
  obtain ⟨l⟩ := content
  unfold scaleSvg scaleSvgL
  dsimp only at hres ⊢
  rw [hres]

theorem c5_passthrough_witness :
    viewBoxFrame docNoDims.data = none ∧
    (findWidthAttr docNoDims.data = none ∨
      findHeightAttr docNoDims.data = none) ∧
    scaleSvg docNoDims 24 = docNoDims :=
  ⟨by with_unfolding_all rfl, Or.inl (by with_unfolding_all rfl),
    c5_passthrough docNoDims 24 (by with_unfolding_all rfl)
      (Or.inl (by with_unfolding_all rfl))⟩

/-- C8: a circular arc (`rx = ry = r`) under a uniform scale
(`scale_x = scale_y = s`) keeps its shape: both radii become `r * s`
and the x-axis rotation is unchanged (the endpoint is re-origined only
when absolute). -/
theorem c8_arc_uniform_scale (tx ty s r rot x y : ℚ) (laf sf : Bool) :
    transformCmds tx ty s s [.arcTo false r r rot laf sf x y] =
      [.arcTo false (r * s) (r * s) rot laf sf ((x - tx) * s) ((y - ty) * s)] ∧
    transformCmds tx ty s s [.arcTo true r r rot laf sf x y] =
      [.arcTo true (r * s) (r * s) rot laf sf (x * s) (y * s)] := by
  constructor
  · unfold transformCmds
    split_ifs with hc
    · simp [translateCmd, scaleCmd, sub_eq_add_neg]
    · push_neg at hc
      obtain ⟨h1, h2⟩ := hc
      subst h1; subst h2
      simp [scaleCmd]
  · unfold transformCmds
    split_ifs with hc <;> simp [translateCmd, scaleCmd]

/-- C10: dimension resolution takes the first `viewBox="..."` substring
anywhere in the text, case-insensitively — here the only viewBox sits
(uppercase) on a nested symbol element, and it still determines the
frame that rescales the path. -/
theorem c10_nested_viewbox_drives_frame :
    resolveDims docNested.data = some (0, 0, 48, 48) ∧
    scaleSvg docNested 24 = outNested :=
  ⟨by with_unfolding_all rfl, by with_unfolding_all rfl⟩

/-- C3: on a resolvable document, the output is the root-patched,
attribute-stripped segmentwise rewrite of the leftmost path-tag
matches; a segment whose `d` fails to parse contributes its original
text unmodified, and the decomposition as a whole loses no text, so
the remaining segments are still processed and the root patch still
occurs. -/
theorem c3_per_path_policy (content : String) (S mx my w h : ℚ)
    (hres : resolveDims content.data = some (mx, my, w, h))
    (hw : w ≠ 0) (hh : h ≠ 0) :
    (scaleSvg content S).data =
      patchSvgTag S (stripSizeAttrs
        (renderSegs mx my (S / w) (S / h) (pathSegs content.data))) ∧
    (∀ g ∈ (pathSegs content.data).1, parsePath g.d = none →
      renderSeg mx my (S / w) (S / h) g = g.before ++ g.whole) ∧
    origSegs (pathSegs content.data) = content.data := by
  refine ⟨?_, ?_, origSegs_pathSegsAux _ _⟩
  · unfold scaleSvg scaleSvgL
    rw [hres]
    dsimp only
    rw [if_neg (by simp [hw, hh])]
    unfold replacePaths
    rw [replacePathsAux_renders]
    rfl
  · intro g hg hpd
    unfold renderSeg rewriteTag
    rw [hpd]

theorem c3_witness :
    resolveDims docTwoPaths.data = some (0, 0, 48, 48) ∧
    (scaleSvg docTwoPaths 24).data =
      patchSvgTag 24 (stripSizeAttrs
        (renderSegs 0 0 (24 / 48) (24 / 48) (pathSegs docTwoPaths.data))) ∧
    origSegs (pathSegs docTwoPaths.data) = docTwoPaths.data := by
  have h1 : resolveDims docTwoPaths.data = some (0, 0, 48, 48) := by
    with_unfolding_all rfl
  have h2 := c3_per_path_policy docTwoPaths 24 0 0 48 48 h1 (by norm_num)
    (by norm_num)
  exact ⟨h1, h2.1, h2.2.2⟩

/-- C4 counterexample: on `docResidual` the dimensions resolve and the
call succeeds, yet stripping ` width="8"` splices the surrounding text
into a leftover `width="9"` attribute, so the output's root svg tag
carries two width attributes — not exactly the canonical triple. -/
theorem c4_counterexample :
    resolveDims docResidual.data = some (0, 0, 12, 12) ∧
    scaleSvg docResidual 24 = outResidual ∧
    rootCarriesExactly (scaleSvg docResidual 24) 24 = false := by
  have heq : scaleSvg docResidual 24 = outResidual := by with_unfolding_all rfl
  refine ⟨by with_unfolding_all rfl, heq, ?_⟩
  rw [heq]
  with_unfolding_all rfl

/-- C4 amended: on success the output is the input with the canonical
` width="S" height="S" viewBox="0 0 S S"` spliced as the final
attributes of the first svg tag of the stripped, path-rewritten text;
sizing attributes that survive the stripper (e.g. re-formed by the
splice, or quoted differently) can remain beside them, so the root tag
always ends with the canonical triple but need not carry exactly it. -/
theorem c4_amended (content : String) (S mx my w h : ℚ) (b : List Char)
    (len : Nat) (g : List Char)
    (hres : resolveDims content.data = some (mx, my, w, h))
    (hw : w ≠ 0) (hh : h ≠ 0)
    (hfind : findSvgTag (stripSizeAttrs
      (replacePaths mx my (S / w) (S / h) content.data)) = some (b, len, g)) :
    (scaleSvg content S).data =
      b ++ ('<' :: 's' :: 'v' :: 'g' :: g) ++ canonicalAttrs S ++ ['>'] ++
        ((stripSizeAttrs (replacePaths mx my (S / w) (S / h)
          content.data)).drop b.length).drop len := by
  unfold scaleSvg scaleSvgL
  rw [hres]
  dsimp only
  rw [if_neg (by simp [hw, hh])]
  unfold patchSvgTag
  rw [hfind]

theorem c4_amended_witness :
    resolveDims docResidual.data = some (0, 0, 12, 12) ∧
    findSvgTag (stripSizeAttrs (replacePaths 0 0 (24 / 12) (24 / 12)
      docResidual.data)) = some ([], 15, gResidual) ∧
    (scaleSvg docResidual 24).data =
      [] ++ ('<' :: 's' :: 'v' :: 'g' :: gResidual) ++ canonicalAttrs 24 ++ ['>'] ++
        ((stripSizeAttrs (replacePaths 0 0 (24 / 12) (24 / 12)
          docResidual.data)).drop ([] : List Char).length).drop 15 := by
  have h1 : resolveDims docResidual.data = some (0, 0, 12, 12) := by
    with_unfolding_all rfl
  have h4 : findSvgTag (stripSizeAttrs (replacePaths 0 0 (24 / 12) (24 / 12)
      docResidual.data)) = some ([], 15, gResidual) := by with_unfolding_all rfl
  exact ⟨h1, h4, c4_amended docResidual 24 0 0 12 12 [] 15 gResidual h1
    (by norm_num) (by norm_num) h4⟩

/-- C6 counterexample: the attribute strip is global, so the nested
rect's `width="5"` (present in the input) is gone from the output of a
successful run — sizing attributes on non-root elements are not left
unchanged. -/
theorem c6_counterexample :
    resolveDims docRect.data = some (0, 0, 12, 12) ∧
    containsSub patWidthFive docRect.data = true ∧
    scaleSvg docRect 24 = outRect ∧
    containsSub patWidthFive (scaleSvg docRect 24).data = false := by
  have heq : scaleSvg docRect 24 = outRect := by with_unfolding_all rfl
  refine ⟨by with_unfolding_all rfl, by decide, heq, ?_⟩
  rw [heq]
  decide

/-- C6 amended: the attribute-strip pass removes exactly the
document-wide leftmost matches of `/\s(width|height|viewBox)="[^"]*"/i`
— on every element, not only the root — and preserves all text outside
those matches verbatim (the decomposition reassembles to the input). -/
theorem c6_amended (fuel : Nat) (s : List Char) :
    stripSizeAttrsAux fuel s =
      ((sizeSegsAux fuel s).1.map Prod.fst).flatten ++ (sizeSegsAux fuel s).2 ∧
    ((sizeSegsAux fuel s).1.map fun p => p.1 ++ p.2).flatten ++
      (sizeSegsAux fuel s).2 = s := by
  induction fuel generalizing s with
  | zero => simp [stripSizeAttrsAux, sizeSegsAux]
  | succ n ih =>
    rw [stripSizeAttrsAux, sizeSegsAux]
    cases hf : findSizeAttr s with
    | none => simp
    | some t =>
      obtain ⟨b, len⟩ := t
      dsimp only
      obtain ⟨ih1, ih2⟩ := ih ((s.drop b.length).drop len)
      constructor
      · rw [ih1]
        simp [List.append_assoc]
      · simp only [List.map_cons, List.flatten_cons, List.append_assoc]
        rw [ih2, List.take_append_drop]
        exact findSizeAttr_before hf

/-- C7: on a document whose viewBox is already `0 0 S S`, normalizing
with target size `S` uses scale factors `S / S` and a zero origin, and
that transform fixes every parsed path command — variants, relativity
and operand values are all unchanged. -/
theorem c7_identity_on_normalized (content : String) (S : ℚ) (d : List Char)
    (cmds : List PathCmd)
    (hres : resolveDims content.data = some (0, 0, S, S)) (hS : S ≠ 0)
    (hd : parsePath d = some cmds) :
    transformCmds 0 0 (S / S) (S / S) cmds = cmds := by
  rw [div_self hS]
  unfold transformCmds
  rw [if_neg (by simp)]
  clear hres hd
  induction cmds with
  | nil => rfl
  | cons c cs ih => simp only [List.map_cons, scaleCmd_one, ih]

theorem c7_witness :
    resolveDims docIdem.data = some (0, 0, 24, 24) ∧
    parsePath dIdem = some cmdsIdem ∧
    transformCmds 0 0 (24 / 24) (24 / 24) cmdsIdem = cmdsIdem := by
  have h1 : resolveDims docIdem.data = some (0, 0, 24, 24) := by
    with_unfolding_all rfl
  have h2 : parsePath dIdem = some cmdsIdem := by with_unfolding_all rfl
  exact ⟨h1, h2, c7_identity_on_normalized docIdem 24 dIdem cmdsIdem h1
    (by norm_num) h2⟩

/-- C9: the entry point is a total function on strings; unresolvable or
zero dimensions degrade to whole-document passthrough, a `d` that fails
to parse degrades to an unmodified path tag, and the omitted size
argument defaults to 24. -/
theorem c9_totality (content : String) (S mx my sx sy mx2 my2 w h : ℚ)
    (d whole pre post : List Char) :
    (resolveDims content.data = none → scaleSvg content S = content) ∧
    (resolveDims content.data = some (mx2, my2, w, h) → (w = 0 ∨ h = 0) →
      scaleSvg content S = content) ∧
    (parsePath d = none → rewriteTag mx my sx sy whole pre d post = whole) ∧
    scaleSvgDefault content = scaleSvg content 24 := by
  obtain ⟨l⟩ := content
  refine ⟨fun hres => ?_, fun hres hz => ?_, fun hpd => ?_, rfl⟩
  · unfold scaleSvg scaleSvgL
    dsimp only at hres ⊢
    rw [hres]
  · unfold scaleSvg scaleSvgL
    dsimp only at hres ⊢
    rw [hres]
    simp [hz]
  · unfold rewriteTag
    rw [hpd]

theorem c9_witness :
    (resolveDims docNoDims.data = none ∧ scaleSvg docNoDims 24 = docNoDims) ∧
    (resolveDims docZeroVB.data = some (0, 0, 0, 10) ∧
      scaleSvg docZeroVB 24 = docZeroVB) ∧
    (parsePath dBad = none ∧
      rewriteTag 0 0 2 2 tagBad [' '] dBad ['/'] = tagBad) ∧
    scaleSvgDefault docNoDims = scaleSvg docNoDims 24 := by
  have h1 : resolveDims docNoDims.data = none := by with_unfolding_all rfl
  have h2 : resolveDims docZeroVB.data = some (0, 0, 0, 10) := by
    with_unfolding_all rfl
  have h3 : parsePath dBad = none := by with_unfolding_all rfl
  exact ⟨⟨h1, (c9_totality docNoDims 24 0 0 0 0 0 0 0 0 dBad tagBad [' ']
      ['/']).1 h1⟩,
    ⟨h2, (c9_totality docZeroVB 24 0 0 0 0 0 0 0 10 dBad tagBad [' ']
      ['/']).2.1 h2 (Or.inl rfl)⟩,
    ⟨h3, (c9_totality docNoDims 24 0 0 2 2 0 0 0 0 dBad tagBad [' ']
      ['/']).2.2.1 h3⟩,
    (c9_totality docNoDims 24 0 0 0 0 0 0 0 0 dBad tagBad [' ']
      ['/']).2.2.2⟩

end Svg
